import Mathlib

/-!
Verification of the homebase trip-planning backend's data model.

The transport layer lives in `backend/main.py`; endpoint handlers
(`get_place`, `get_users`, `get_user_data`, …) are embedded from that file.
The store itself (`InfoManagerDict`, imported by `main.py` as
`info_manager_dict`) is not part of the available sources, so its
operations are modelled from the specification's Directory contract
(spec §3 data model and §4.1 operation list): each such definition carries
a doc comment starting `Modelled from the spec:`.

Coordinates are Python floats used only as opaque stored values (no
arithmetic is ever performed on them), so they are embedded as `Rat`.
User identifiers are UUID strings in the source, generated fresh at user
creation; freshness is the only property used, so they are embedded as
naturals issued from a counter carried by the Directory.
Python dicts preserve insertion order, so each mapping is embedded as an
association list in insertion order.
-/

set_option autoImplicit false

/-- A point of interest: name, external id, coordinates (spec §3). -/
structure Place where
  name : String
  ID : String
  latitude : Rat
  longitude : Rat
deriving DecidableEq, Repr

/-- A named collection of Places belonging to one user (spec §3). -/
structure ActivityGroup where
  name : String
  places : List Place
deriving DecidableEq, Repr

/-- An ordered itinerary of place references, by `Place.ID` (spec §3). -/
structure DailyPlan where
  id : String
  placeIds : List String
deriving DecidableEq, Repr

/-- A user record: home coordinate, activity groups, daily plans (spec §3). -/
structure User where
  home : Rat × Rat
  activityGroups : List ActivityGroup
  dailyPlans : List DailyPlan
deriving DecidableEq, Repr

/-- The top-level store: users in insertion order, plus the id counter. -/
structure Directory where
  users : List (Nat × User)
  nextId : Nat
deriving DecidableEq, Repr

/-- The three-tier not-found taxonomy of spec §7 (the tiers the Directory
itself raises). -/
inductive DirError where
  | userNotFound
  | groupNotFound
  | planNotFound
  | placeNotFound
deriving DecidableEq, Repr

/-- The empty store a fresh process starts from. -/
def initDir : Directory := ⟨[], 0⟩

/-- First user record stored under `uid`, if any. -/
def Directory.findUser (d : Directory) (uid : Nat) : Option User :=
  (d.users.find? (fun p => p.1 == uid)).map (fun p => p.2)

/-- Rewrite the record of user `uid` in place, leaving every other entry
untouched. -/
def Directory.updateUser (d : Directory) (uid : Nat) (f : User → User) : Directory :=
  { d with users := d.users.map (fun p => if p.1 == uid then (p.1, f p.2) else p) }

/-- First activity group of `u` named `gname`, if any. -/
def User.findGroup (u : User) (gname : String) : Option ActivityGroup :=
  u.activityGroups.find? (fun g => g.name == gname)

/-- First daily plan of `u` with id `planId`, if any. -/
def User.findPlan (u : User) (planId : String) : Option DailyPlan :=
  u.dailyPlans.find? (fun p => p.id == planId)

/-- The flattened union of Places across all of a user's activity groups
(spec §4.1, `getPlaces`). -/
def User.allPlaces (u : User) : List Place :=
  u.activityGroups.flatMap (fun g => g.places)

/-- Resolve a place reference to the first owned Place with that id,
looking across the user's activity groups (spec §4.1, `getDailyPlan`). -/
def User.resolvePlace (u : User) (pid : String) : Option Place :=
  u.allPlaces.find? (fun p => p.ID == pid)

/-- Modelled from the spec: `InfoManagerDict.add_user` is not under `src/`.
Spec §4.1 `createUser(latitude, longitude) -> userId`: generates a fresh
unique identifier, creates a User with the given home coordinate and empty
collections; never fails. -/
def Directory.createUser (d : Directory) (lat lon : Rat) : Directory × Nat :=
  ({ users := d.users ++ [(d.nextId, ⟨(lat, lon), [], []⟩)], nextId := d.nextId + 1 },
   d.nextId)

/-- Modelled from the spec: `InfoManagerDict.get_user` is not under `src/`.
Spec §4.1 `getUser(userId)`: fails with `NotFound(User)` if absent. -/
def Directory.getUser (d : Directory) (uid : Nat) : Except DirError User :=
  match d.findUser uid with
  | some u => .ok u
  | none => .error .userNotFound

/-- Modelled from the spec: `InfoManagerDict.add_activity_group` is not under
`src/`. Spec §4.1 `addActivityGroup(userId, groupName)`: fails with
`NotFound(User)` if user absent; the source does not guard against duplicate
names, so a new empty group is appended. -/
def Directory.addActivityGroup (d : Directory) (uid : Nat) (gname : String) :
    Except DirError Directory :=
  match d.findUser uid with
  | none => .error .userNotFound
  | some _ => .ok (d.updateUser uid (fun u =>
      { u with activityGroups := u.activityGroups ++ [⟨gname, []⟩] }))

/-- Modelled from the spec: `InfoManagerDict.delete_activity_group` is not
under `src/`. Spec §4.1 `deleteActivityGroup(userId, groupName)`: fails with
`NotFound(User)`; silently succeeds if the group does not exist (source
behavior). -/
def Directory.deleteActivityGroup (d : Directory) (uid : Nat) (gname : String) :
    Except DirError Directory :=
  match d.findUser uid with
  | none => .error .userNotFound
  | some _ => .ok (d.updateUser uid (fun u =>
      { u with activityGroups := u.activityGroups.filter (fun g => ¬ g.name == gname) }))

/-- Modelled from the spec: `InfoManagerDict.activity_group_exists` is not
under `src/`. Spec §4.1 `activityGroupExists(userId, groupName) -> bool`:
fails with `NotFound(User)` if user absent. -/
def Directory.activityGroupExists (d : Directory) (uid : Nat) (gname : String) :
    Except DirError Bool :=
  match d.findUser uid with
  | none => .error .userNotFound
  | some u => .ok (u.findGroup gname).isSome

/-- Modelled from the spec: `InfoManagerDict.add_place` is not under `src/`.
Spec §4.1 `addPlace(groupName, userId, name, placeId, lat, lon)`: fails with
`NotFound(User)`, fails with `NotFound(Group)` if group absent; appends a new
Place to the group. -/
def Directory.addPlace (d : Directory) (gname : String) (uid : Nat)
    (pname pid : String) (lat lon : Rat) : Except DirError Directory :=
  match d.findUser uid with
  | none => .error .userNotFound
  | some u =>
    match u.findGroup gname with
    | none => .error .groupNotFound
    | some _ => .ok (d.updateUser uid (fun u =>
        { u with activityGroups := u.activityGroups.map (fun g =>
            if g.name == gname then { g with places := g.places ++ [⟨pname, pid, lat, lon⟩] }
            else g) }))

/-- Modelled from the spec: `InfoManagerDict.get_places` is not under `src/`.
Spec §4.1 `getPlaces(userId)`: returns the flattened union of Places across
all of a user's activity groups; fails with `NotFound(User)`. -/
def Directory.getPlaces (d : Directory) (uid : Nat) : Except DirError (List Place) :=
  match d.findUser uid with
  | none => .error .userNotFound
  | some u => .ok u.allPlaces

/-- Modelled from the spec: `InfoManagerDict.delete_place` is not under
`src/`. Spec §4.1 `deletePlace(userId, groupName, placeId)`: fails with
`NotFound(User)`, `NotFound(Group)`; removes the first Place with matching id
from that group; no-op if absent. -/
def Directory.deletePlace (d : Directory) (uid : Nat) (gname pid : String) :
    Except DirError Directory :=
  match d.findUser uid with
  | none => .error .userNotFound
  | some u =>
    match u.findGroup gname with
    | none => .error .groupNotFound
    | some _ => .ok (d.updateUser uid (fun u =>
        { u with activityGroups := u.activityGroups.map (fun g =>
            if g.name == gname then { g with places := g.places.eraseP (fun p => p.ID == pid) }
            else g) }))

/-- Modelled from the spec: `InfoManagerDict.get_activity_group` is not under
`src/`. Spec §4.1 `getActivityGroup(userId, groupName)`: fails with
`NotFound(User)`, `NotFound(Group)`. -/
def Directory.getActivityGroup (d : Directory) (uid : Nat) (gname : String) :
    Except DirError (List Place) :=
  match d.findUser uid with
  | none => .error .userNotFound
  | some u =>
    match u.findGroup gname with
    | none => .error .groupNotFound
    | some g => .ok g.places

/-- Modelled from the spec: `InfoManagerDict.add_to_daily_plan` is not under
`src/`. Spec §4.1 `addToDailyPlan(userId, dailyPlanId, placeId)`: fails with
`NotFound(User)`; creates the daily plan lazily if it does not exist, then
appends the place reference (duplicates allowed — ordered sequence
semantics, not a set). -/
def Directory.addToDailyPlan (d : Directory) (uid : Nat) (planId pid : String) :
    Except DirError Directory :=
  match d.findUser uid with
  | none => .error .userNotFound
  | some _ => .ok (d.updateUser uid (fun u =>
      if (u.findPlan planId).isSome then
        { u with dailyPlans := u.dailyPlans.map (fun p =>
            if p.id == planId then { p with placeIds := p.placeIds ++ [pid] } else p) }
      else
        { u with dailyPlans := u.dailyPlans ++ [⟨planId, [pid]⟩] }))

/-- Modelled from the spec: `InfoManagerDict.remove_from_daily_plan` is not
under `src/`. Spec §4.1 `removeFromDailyPlan(userId, placeId)`: fails with
`NotFound(User)`; removes the first occurrence of `placeId` across the
user's daily plans (the source's plan scoping is flagged as ambiguous in
spec §9; modelled as erasing the first occurrence within each plan). -/
def Directory.removeFromDailyPlan (d : Directory) (uid : Nat) (pid : String) :
    Except DirError Directory :=
  match d.findUser uid with
  | none => .error .userNotFound
  | some _ => .ok (d.updateUser uid (fun u =>
      { u with dailyPlans := u.dailyPlans.map (fun p =>
          { p with placeIds := p.placeIds.erase pid }) }))

/-- Modelled from the spec: `InfoManagerDict.get_daily_plan` is not under
`src/`. Spec §4.1 `getDailyPlan(userId, dailyPlanId)`: fails with
`NotFound(User)`, `NotFound(Plan)`; resolves each place reference to its
full Place record by looking across the user's activity groups (dangling
references are tolerated by skipping, per spec §9's read-with-skip note). -/
def Directory.getDailyPlan (d : Directory) (uid : Nat) (planId : String) :
    Except DirError (List Place) :=
  match d.findUser uid with
  | none => .error .userNotFound
  | some u =>
    match u.findPlan planId with
    | none => .error .planNotFound
    | some plan => .ok (plan.placeIds.filterMap u.resolvePlace)

/-- Python's `str.lower()` on the ASCII range, as the per-character
lowercase map over the string's characters. -/
def strLower (s : String) : String := ⟨s.data.map Char.toLower⟩

/-- Embedded from `backend/main.py` `get_place` (GET `/place`): checks the
user exists, flattens the user's places, and returns the first Place whose
lowercased name equals the lowercased query. -/
def get_place (d : Directory) (uid : Nat) (place_name : String) : Except DirError Place :=
  match d.findUser uid with
  | none => .error .userNotFound
  | some u =>
    match u.allPlaces.find? (fun p => strLower p.name == strLower place_name) with
    | some p => .ok p
    | none => .error .placeNotFound

/-- Embedded from `backend/main.py` `get_users` (GET `/users`): one
`(user_id, homebase)` entry per user, in the store's iteration (insertion)
order. -/
def get_users (d : Directory) : List (Nat × (Rat × Rat)) :=
  d.users.map (fun p => (p.1, p.2.home))

/-- Embedded from `backend/main.py` `get_user_data` (GET `/data/{uuid}`):
the handler declares no parameter for the `uuid` path segment, so the
argument is unused, and the body is the same full-listing loop as
`get_users`. -/
def get_user_data (uuid : String) (d : Directory) : List (Nat × (Rat × Rat)) :=
  d.users.map (fun p => (p.1, p.2.home))

/-- The place references currently stored under `planId` for `u`
(the empty sequence when the plan does not exist yet). -/
def User.planRefs (u : User) (planId : String) : List String :=
  match u.findPlan planId with
  | some plan => plan.placeIds
  | none => []

/-- Spec §3 invariant fragment: identifiers already issued stay below the
Directory's counter. -/
def Directory.WFids (d : Directory) : Prop :=
  ∀ p ∈ d.users, p.1 < d.nextId

/-- One mutating Directory operation, for reasoning about arbitrary prior
operation sequences (spec §8 freshness property). -/
inductive Op where
  | opCreateUser (lat lon : Rat)
  | opAddActivityGroup (uid : Nat) (gname : String)
  | opDeleteActivityGroup (uid : Nat) (gname : String)
  | opAddPlace (gname : String) (uid : Nat) (pname pid : String) (lat lon : Rat)
  | opDeletePlace (uid : Nat) (gname pid : String)
  | opAddToDailyPlan (uid : Nat) (planId pid : String)
  | opRemoveFromDailyPlan (uid : Nat) (pid : String)
deriving DecidableEq, Repr

/-- The state after a fallible operation: on an error the store is
untouched. -/
def exceptToState (d : Directory) : Except DirError Directory → Directory
  | .ok d' => d'
  | .error _ => d

/-- Apply one mutating operation to the store. -/
def applyOp (d : Directory) : Op → Directory
  | .opCreateUser lat lon => (d.createUser lat lon).1
  | .opAddActivityGroup uid gname => exceptToState d (d.addActivityGroup uid gname)
  | .opDeleteActivityGroup uid gname => exceptToState d (d.deleteActivityGroup uid gname)
  | .opAddPlace gname uid pname pid lat lon =>
      exceptToState d (d.addPlace gname uid pname pid lat lon)
  | .opDeletePlace uid gname pid => exceptToState d (d.deletePlace uid gname pid)
  | .opAddToDailyPlan uid planId pid => exceptToState d (d.addToDailyPlan uid planId pid)
  | .opRemoveFromDailyPlan uid pid => exceptToState d (d.removeFromDailyPlan uid pid)

/-- Run a sequence of mutating operations from a starting store. -/
def runOps (d : Directory) : List Op → Directory
  | [] => d
  | op :: ops => runOps (applyOp d op) ops

/-- The user identifiers a single operation issues. -/
def issuedByOp (d : Directory) : Op → List Nat
  | .opCreateUser _ _ => [d.nextId]
  | _ => []

/-- Every user identifier issued along a sequence of operations. -/
def issuedIds (d : Directory) : List Op → List Nat
  | [] => []
  | op :: ops => issuedByOp d op ++ issuedIds (applyOp d op) ops

/-- A concrete user for evaluating the operations: home (1, 2), one
activity group "Weekend" holding the place "Pier 39" (id `p1`), and one
daily plan "day1" already referencing `p1` (spec §8 concrete scenario). -/
def wUser : User :=
  ⟨(1, 2), [⟨"Weekend", [⟨"Pier 39", "p1", 3, 4⟩]⟩], [⟨"day1", ["p1"]⟩]⟩

/-- A concrete store holding `wUser` under identifier 0. -/
def wDir : Directory := ⟨[(0, wUser)], 1⟩

/-! ## Helper lemmas -/

theorem find?_map_fix {α : Type} (f : α → α) (q : α → Bool)
    (hq : ∀ a, q (f a) = q a) (l : List α) :
    (l.map f).find? q = (l.find? q).map f := by
  rw [List.find?_map]
  have h : q ∘ f = q := funext hq
  rw [h]

theorem findUser_updateUser (d : Directory) (uid : Nat) (f : User → User) :
    (d.updateUser uid f).findUser uid = (d.findUser uid).map f := by
  unfold Directory.updateUser Directory.findUser
  rw [find?_map_fix (fun p => if p.1 == uid then (p.1, f p.2) else p)
    (fun p => p.1 == uid) (by intro a; by_cases h : a.1 == uid <;> simp [h])]
  cases hfind : d.users.find? (fun p => p.1 == uid) with
  | none => rfl
  | some p =>
    have hp := List.find?_some hfind
    have he : p.1 = uid := by simpa using hp
    simp [he]

theorem keys_updateUser (d : Directory) (uid : Nat) (f : User → User) :
    (d.updateUser uid f).users.map Prod.fst = d.users.map Prod.fst := by
  unfold Directory.updateUser
  simp only [List.map_map]
  apply List.map_congr_left
  intro p _
  by_cases h : p.1 == uid
  · have he : p.1 = uid := by simpa using h
    simp [he]
  · have he : ¬ p.1 = uid := by simpa using h
    simp [he]

theorem updateUser_eq_self (d : Directory) (uid : Nat) (f : User → User)
    (h : ∀ p ∈ d.users, p.1 = uid → f p.2 = p.2) :
    d.updateUser uid f = d := by
  unfold Directory.updateUser
  have hm : d.users.map (fun p => if p.1 == uid then (p.1, f p.2) else p) = d.users := by
    conv_rhs => rw [← List.map_id d.users]
    apply List.map_congr_left
    intro p hp
    by_cases hc : p.1 == uid
    · have hfix := h p hp (by simpa using hc)
      simp [hc, hfix]
    · simp [hc]
  rw [hm]

theorem findUser_append_fresh (d : Directory) (lat lon : Rat) (h : d.WFids) :
    (d.createUser lat lon).1.findUser (d.createUser lat lon).2 =
      some ⟨(lat, lon), [], []⟩ := by
  unfold Directory.createUser Directory.findUser
  rw [List.find?_append]
  have hnone : d.users.find? (fun p => p.1 == d.nextId) = none := by
    rw [List.find?_eq_none]
    intro p hp
    have := h p hp
    simp only [beq_iff_eq]
    omega
  rw [hnone]
  simp [List.find?_cons]

theorem find?_key_unique (uid : Nat) (q : Nat × User) :
    ∀ (l : List (Nat × User)), (l.map Prod.fst).Nodup →
      l.find? (fun p => p.1 == uid) = some q →
      ∀ p ∈ l, p.1 = uid → p = q := by
  intro l
  induction l with
  | nil => intro _ h; simp at h
  | cons a l ih =>
    intro hnd hfind p hp hpuid
    rw [List.map_cons, List.nodup_cons] at hnd
    rw [List.find?_cons] at hfind
    by_cases ha : a.1 == uid
    · simp only [ha] at hfind
      have hqa : q = a := by cases hfind; rfl
      rcases List.mem_cons.mp hp with rfl | hpl
      · exact hqa.symm
      · exfalso
        apply hnd.1
        have : a.1 = uid := by simpa using ha
        rw [this, ← hpuid]
        exact List.mem_map.mpr ⟨p, hpl, rfl⟩
    · simp only [Bool.not_eq_true] at ha
      simp only [ha] at hfind
      rcases List.mem_cons.mp hp with rfl | hpl
      · exact absurd (by simpa using hpuid) (by simpa using ha)
      · exact ih hnd.2 hfind p hpl hpuid

theorem eraseP_all_not_of_countP_le_one {α : Type} (q : α → Bool) :
    ∀ (l : List α), l.countP q ≤ 1 → ∀ p ∈ l.eraseP q, q p = false := by
  intro l
  induction l with
  | nil => intro _ p hp; simp at hp
  | cons a l ih =>
    intro hc p hp
    by_cases ha : q a
    · rw [List.eraseP_cons_of_pos ha] at hp
      rw [List.countP_cons_of_pos q l ha] at hc
      have hz : l.countP q = 0 := by omega
      have := (List.countP_eq_zero.mp hz) p hp
      simpa using this
    · rw [List.eraseP_cons_of_neg ha] at hp
      rw [List.countP_cons_of_neg q l ha] at hc
      rcases List.mem_cons.mp hp with rfl | hpl
      · simpa using ha
      · exact ih hc p hpl

theorem WFids_updateUser (d : Directory) (uid : Nat) (f : User → User)
    (h : d.WFids) : (d.updateUser uid f).WFids := by
  intro p hp
  have hk : p.1 ∈ (d.updateUser uid f).users.map Prod.fst :=
    List.mem_map.mpr ⟨p, hp, rfl⟩
  rw [keys_updateUser] at hk
  rcases List.mem_map.mp hk with ⟨q, hq, hfst⟩
  have hlt := h q hq
  show p.1 < d.nextId
  rw [← hfst]
  exact hlt

theorem WFids_createUser (d : Directory) (lat lon : Rat)
    (h : d.WFids) : (d.createUser lat lon).1.WFids := by
  intro p hp
  simp only [Directory.createUser] at hp
  show p.1 < d.nextId + 1
  rcases List.mem_append.mp hp with hin | hnew
  · exact Nat.lt_succ_of_lt (h p hin)
  · have : p = (d.nextId, ⟨(lat, lon), [], []⟩) := by simpa using hnew
    rw [this]
    exact Nat.lt_succ_self _

theorem initDir_WFids : initDir.WFids := by
  intro p hp
  simp [initDir] at hp

theorem applyOp_cases (d : Directory) (op : Op) :
    applyOp d op = d ∨ (∃ lat lon, applyOp d op = (d.createUser lat lon).1) ∨
    ∃ uid f, applyOp d op = d.updateUser uid f := by
  cases op with
  | opCreateUser lat lon => exact Or.inr (Or.inl ⟨lat, lon, rfl⟩)
  | opAddActivityGroup uid gname =>
    cases hfu : d.findUser uid with
    | none =>
      left
      simp [applyOp, Directory.addActivityGroup, hfu, exceptToState]
    | some u =>
      right; right
      refine ⟨uid, fun u => { u with activityGroups := u.activityGroups ++ [⟨gname, []⟩] }, ?_⟩
      simp [applyOp, Directory.addActivityGroup, hfu, exceptToState]
  | opDeleteActivityGroup uid gname =>
    cases hfu : d.findUser uid with
    | none =>
      left
      simp [applyOp, Directory.deleteActivityGroup, hfu, exceptToState]
    | some u =>
      right; right
      refine ⟨uid, fun u =>
        { u with activityGroups := u.activityGroups.filter (fun g => ¬ g.name == gname) }, ?_⟩
      simp [applyOp, Directory.deleteActivityGroup, hfu, exceptToState]
  | opAddPlace gname uid pname pid lat lon =>
    cases hfu : d.findUser uid with
    | none =>
      left
      simp [applyOp, Directory.addPlace, hfu, exceptToState]
    | some u =>
      cases hfg : u.findGroup gname with
      | none =>
        left
        simp [applyOp, Directory.addPlace, hfu, hfg, exceptToState]
      | some g =>
        right; right
        refine ⟨uid, fun u =>
          { u with activityGroups := u.activityGroups.map (fun g =>
              if g.name == gname then { g with places := g.places ++ [⟨pname, pid, lat, lon⟩] }
              else g) }, ?_⟩
        simp [applyOp, Directory.addPlace, hfu, hfg, exceptToState]
  | opDeletePlace uid gname pid =>
    cases hfu : d.findUser uid with
    | none =>
      left
      simp [applyOp, Directory.deletePlace, hfu, exceptToState]
    | some u =>
      cases hfg : u.findGroup gname with
      | none =>
        left
        simp [applyOp, Directory.deletePlace, hfu, hfg, exceptToState]
      | some g =>
        right; right
        refine ⟨uid, fun u =>
          { u with activityGroups := u.activityGroups.map (fun g =>
              if g.name == gname then { g with places := g.places.eraseP (fun p => p.ID == pid) }
              else g) }, ?_⟩
        simp [applyOp, Directory.deletePlace, hfu, hfg, exceptToState]
  | opAddToDailyPlan uid planId pid =>
    cases hfu : d.findUser uid with
    | none =>
      left
      simp [applyOp, Directory.addToDailyPlan, hfu, exceptToState]
    | some u =>
      right; right
      refine ⟨uid, fun u =>
        if (u.findPlan planId).isSome then
          { u with dailyPlans := u.dailyPlans.map (fun p =>
              if p.id == planId then { p with placeIds := p.placeIds ++ [pid] } else p) }
        else
          { u with dailyPlans := u.dailyPlans ++ [⟨planId, [pid]⟩] }, ?_⟩
      simp [applyOp, Directory.addToDailyPlan, hfu, exceptToState]
  | opRemoveFromDailyPlan uid pid =>
    cases hfu : d.findUser uid with
    | none =>
      left
      simp [applyOp, Directory.removeFromDailyPlan, hfu, exceptToState]
    | some u =>
      right; right
      refine ⟨uid, fun u =>
        { u with dailyPlans := u.dailyPlans.map (fun p =>
            { p with placeIds := p.placeIds.erase pid }) }, ?_⟩
      simp [applyOp, Directory.removeFromDailyPlan, hfu, exceptToState]

theorem WFids_applyOp (d : Directory) (op : Op) (h : d.WFids) :
    (applyOp d op).WFids := by
  rcases applyOp_cases d op with he | ⟨lat, lon, he⟩ | ⟨uid, f, he⟩
  · rw [he]; exact h
  · rw [he]; exact WFids_createUser d lat lon h
  · rw [he]; exact WFids_updateUser d uid f h

theorem WFids_runOps : ∀ (ops : List Op) (d : Directory),
    d.WFids → (runOps d ops).WFids := by
  intro ops
  induction ops with
  | nil => intro d h; exact h
  | cons op ops ih => intro d h; exact ih (applyOp d op) (WFids_applyOp d op h)

theorem nextId_applyOp (d : Directory) (op : Op) :
    d.nextId ≤ (applyOp d op).nextId := by
  rcases applyOp_cases d op with he | ⟨lat, lon, he⟩ | ⟨uid, f, he⟩
  · rw [he]
  · rw [he]; exact Nat.le_succ _
  · rw [he]; exact Nat.le_refl _

theorem nextId_runOps : ∀ (ops : List Op) (d : Directory),
    d.nextId ≤ (runOps d ops).nextId := by
  intro ops
  induction ops with
  | nil => intro d; exact Nat.le_refl _
  | cons op ops ih =>
    intro d
    exact Nat.le_trans (nextId_applyOp d op) (ih (applyOp d op))

theorem issuedIds_lt : ∀ (ops : List Op) (d : Directory),
    ∀ i ∈ issuedIds d ops, i < (runOps d ops).nextId := by
  intro ops
  induction ops with
  | nil => intro d i hi; simp [issuedIds] at hi
  | cons op ops ih =>
    intro d i hi
    simp only [issuedIds] at hi
    show i < (runOps (applyOp d op) ops).nextId
    rcases List.mem_append.mp hi with hop | htail
    · cases op with
      | opCreateUser lat lon =>
        have hieq : i = d.nextId := by simpa [issuedByOp] using hop
        have h1 : (applyOp d (Op.opCreateUser lat lon)).nextId = d.nextId + 1 := rfl
        have h2 := nextId_runOps ops (applyOp d (Op.opCreateUser lat lon))
        omega
      | opAddActivityGroup uid gname => simp [issuedByOp] at hop
      | opDeleteActivityGroup uid gname => simp [issuedByOp] at hop
      | opAddPlace gname uid pname pid lat lon => simp [issuedByOp] at hop
      | opDeletePlace uid gname pid => simp [issuedByOp] at hop
      | opAddToDailyPlan uid planId pid => simp [issuedByOp] at hop
      | opRemoveFromDailyPlan uid pid => simp [issuedByOp] at hop
    · exact ih (applyOp d op) i htail

/-! ## Claim theorems -/

/-- Claim C1: every Directory operation that reads or mutates a user's
sub-collections (places, activity groups, daily plans) fails with the
distinct `NotFound(User)` error when the user identifier is absent,
regardless of the remaining arguments, and — the operations being pure
`Except` values — without performing any other lookup or mutation first. -/
theorem subcollection_ops_require_user (d : Directory) (uid : Nat)
    (gname pname pid planId : String) (lat lon : Rat)
    (h : d.findUser uid = none) :
    d.addActivityGroup uid gname = .error .userNotFound ∧
    d.deleteActivityGroup uid gname = .error .userNotFound ∧
    d.activityGroupExists uid gname = .error .userNotFound ∧
    d.addPlace gname uid pname pid lat lon = .error .userNotFound ∧
    d.getPlaces uid = .error .userNotFound ∧
    d.deletePlace uid gname pid = .error .userNotFound ∧
    d.getActivityGroup uid gname = .error .userNotFound ∧
    d.addToDailyPlan uid planId pid = .error .userNotFound ∧
    d.removeFromDailyPlan uid pid = .error .userNotFound ∧
    d.getDailyPlan uid planId = .error .userNotFound := by
  refine ⟨?_, ?_, ?_, ?_, ?_, ?_, ?_, ?_, ?_, ?_⟩
  · simp [Directory.addActivityGroup, h]
  · simp [Directory.deleteActivityGroup, h]
  · simp [Directory.activityGroupExists, h]
  · simp [Directory.addPlace, h]
  · simp [Directory.getPlaces, h]
  · simp [Directory.deletePlace, h]
  · simp [Directory.getActivityGroup, h]
  · simp [Directory.addToDailyPlan, h]
  · simp [Directory.removeFromDailyPlan, h]
  · simp [Directory.getDailyPlan, h]

/-- Witness for C1 at a concrete store: identifier 5 is absent from `wDir`,
and every sub-collection operation reports `NotFound(User)` there. -/
theorem subcollection_ops_require_user_witness :
    wDir.addActivityGroup 5 "Food" = .error .userNotFound ∧
    wDir.deleteActivityGroup 5 "Food" = .error .userNotFound ∧
    wDir.activityGroupExists 5 "Food" = .error .userNotFound ∧
    wDir.addPlace "Food" 5 "Pier 39" "p1" 3 4 = .error .userNotFound ∧
    wDir.getPlaces 5 = .error .userNotFound ∧
    wDir.deletePlace 5 "Food" "p1" = .error .userNotFound ∧
    wDir.getActivityGroup 5 "Food" = .error .userNotFound ∧
    wDir.addToDailyPlan 5 "day1" "p1" = .error .userNotFound ∧
    wDir.removeFromDailyPlan 5 "p1" = .error .userNotFound ∧
    wDir.getDailyPlan 5 "day1" = .error .userNotFound :=
  subcollection_ops_require_user wDir 5 "Food" "Pier 39" "p1" "day1" 3 4 (by decide)

/-- Claim C10: the `GET /data/{uuid}` handler ignores its `uuid` path
parameter and returns exactly the `GET /users` payload — the full list of
all users with their home coordinates, never a single user's record. -/
theorem get_user_data_eq_get_users (uuid : String) (d : Directory) :
    get_user_data uuid d = get_users d ∧
    (get_user_data uuid d).length = d.users.length := by
  constructor
  · rfl
  · simp [get_user_data]

/-- Claim C9: the `GET /users` handler is a total pure function producing
one `(userId, home)` entry for every user in the Directory, in the stable
insertion order of the underlying store. -/
theorem get_users_spec (d : Directory) :
    (get_users d).length = d.users.length ∧
    ∀ i : Nat, (get_users d)[i]? = (d.users[i]?).map (fun p => (p.1, p.2.home)) := by
  constructor
  · simp [get_users]
  · intro i
    simp [get_users, List.getElem?_map]

/-- Claim C4: creating a user with home `(lat, lon)` and reading that user
back yields home `(lat, lon)`, in any store whose issued identifiers sit
below the freshness counter. -/
theorem createUser_getUser_roundtrip (d : Directory) (lat lon : Rat)
    (h : d.WFids) :
    ∃ u, (d.createUser lat lon).1.getUser (d.createUser lat lon).2 = .ok u ∧
      u.home = (lat, lon) := by
  refine ⟨⟨(lat, lon), [], []⟩, ?_, rfl⟩
  unfold Directory.getUser
  rw [findUser_append_fresh d lat lon h]

/-- Witness for C4 at the empty store with home (1, 2). -/
theorem createUser_getUser_roundtrip_witness :
    ∃ u, (initDir.createUser 1 2).1.getUser (initDir.createUser 1 2).2 = .ok u ∧
      u.home = (1, 2) :=
  createUser_getUser_roundtrip initDir 1 2 initDir_WFids

/-- Claim C5: after any prior sequence of operations from the empty store,
`createUser` succeeds, the identifier it returns differs from every
identifier issued earlier, and the new user starts with the given home
coordinate and empty activity-group and daily-plan collections. -/
theorem createUser_fresh (ops : List Op) (lat lon : Rat) :
    ((runOps initDir ops).createUser lat lon).2 ∉ issuedIds initDir ops ∧
    ((runOps initDir ops).createUser lat lon).1.findUser
        ((runOps initDir ops).createUser lat lon).2 = some ⟨(lat, lon), [], []⟩ := by
  constructor
  · intro hmem
    have hlt := issuedIds_lt ops initDir _ hmem
    have heq : ((runOps initDir ops).createUser lat lon).2 =
        (runOps initDir ops).nextId := rfl
    omega
  · exact findUser_append_fresh (runOps initDir ops) lat lon
      (WFids_runOps ops initDir initDir_WFids)

/-- Witness for C5 after one prior `createUser` operation. -/
theorem createUser_fresh_witness :
    ((runOps initDir [Op.opCreateUser 1 2]).createUser 3 4).2 ∉
        issuedIds initDir [Op.opCreateUser 1 2] ∧
    ((runOps initDir [Op.opCreateUser 1 2]).createUser 3 4).1.findUser
        ((runOps initDir [Op.opCreateUser 1 2]).createUser 3 4).2 =
      some ⟨(3, 4), [], []⟩ :=
  createUser_fresh [Op.opCreateUser 1 2] 3 4

theorem findGroup_map_fix (u : User) (gname : String)
    (hG : ActivityGroup → ActivityGroup) (hname : ∀ g, (hG g).name = g.name) :
    ({ u with activityGroups := u.activityGroups.map hG } : User).findGroup gname =
      (u.findGroup gname).map hG := by
  show (u.activityGroups.map hG).find? (fun g => g.name == gname) = _
  exact find?_map_fix hG (fun g => g.name == gname)
    (fun g => by show ((hG g).name == gname) = (g.name == gname); rw [hname g])
    u.activityGroups

theorem getActivityGroup_updateUser_map (d : Directory) (uid : Nat) (gname : String)
    (u : User) (grp : ActivityGroup) (hG : ActivityGroup → ActivityGroup)
    (hu : d.findUser uid = some u) (hg : u.findGroup gname = some grp)
    (hname : ∀ g, (hG g).name = g.name) :
    (d.updateUser uid (fun v =>
        { v with activityGroups := v.activityGroups.map hG })).getActivityGroup uid gname
      = .ok (hG grp).places := by
  have h1 : (d.updateUser uid (fun v =>
      { v with activityGroups := v.activityGroups.map hG })).findUser uid =
        some { u with activityGroups := u.activityGroups.map hG } := by
    rw [findUser_updateUser, hu]
    rfl
  have h2 := findGroup_map_fix u gname hG hname
  rw [hg] at h2
  simp only [Directory.getActivityGroup, h1, h2, Option.map_some']

/-- Claim C2: `addPlace` fails with `NotFound(User)` whenever the user is
absent — unconditionally in the rest of the store, so in particular even
when another user owns a group of the requested name — fails with
`NotFound(Group)` when the user exists but the named group does not, and
when both exist appends exactly the new Place to that group. -/
theorem addPlace_spec (d : Directory) (gname : String) (uid : Nat)
    (pname pid : String) (lat lon : Rat) :
    (d.findUser uid = none →
      d.addPlace gname uid pname pid lat lon = .error .userNotFound) ∧
    (∀ u, d.findUser uid = some u → u.findGroup gname = none →
      d.addPlace gname uid pname pid lat lon = .error .groupNotFound) ∧
    (∀ u grp, d.findUser uid = some u → u.findGroup gname = some grp →
      ∃ d', d.addPlace gname uid pname pid lat lon = .ok d' ∧
        d'.getActivityGroup uid gname = .ok (grp.places ++ [⟨pname, pid, lat, lon⟩])) := by
  refine ⟨?_, ?_, ?_⟩
  · intro h
    simp [Directory.addPlace, h]
  · intro u hu hg
    simp [Directory.addPlace, hu, hg]
  · intro u grp hu hg
    have hname : ∀ g : ActivityGroup,
        ((if g.name == gname then
            { g with places := g.places ++ [⟨pname, pid, lat, lon⟩] }
          else g) : ActivityGroup).name = g.name := by
      intro g
      by_cases hgg : g.name == gname <;> simp [hgg]
    have hmain := getActivityGroup_updateUser_map d uid gname u grp
      (fun g => if g.name == gname then
          { g with places := g.places ++ [⟨pname, pid, lat, lon⟩] }
        else g) hu hg hname
    have hg' : u.activityGroups.find? (fun g => g.name == gname) = some grp := hg
    have hgtrue : (grp.name == gname) = true := by
      have := List.find?_some hg'
      simpa using this
    simp only [hgtrue, if_true] at hmain
    refine ⟨_, ?_, hmain⟩
    simp [Directory.addPlace, hu, hg]

/-- Witness for C2: user 5 is absent from `wDir` although user 0 owns a
group named "Weekend", so `addPlace` still reports `NotFound(User)`; and
for the existing user and group the Place is appended. -/
theorem addPlace_spec_witness :
    wDir.addPlace "Weekend" 5 "Alcatraz" "p2" 5 6 = .error .userNotFound ∧
    ∃ d', wDir.addPlace "Weekend" 0 "Alcatraz" "p2" 5 6 = .ok d' ∧
      d'.getActivityGroup 0 "Weekend" =
        .ok ([⟨"Pier 39", "p1", 3, 4⟩] ++ [⟨"Alcatraz", "p2", 5, 6⟩]) :=
  ⟨(addPlace_spec wDir "Weekend" 5 "Alcatraz" "p2" 5 6).1 (by decide),
   (addPlace_spec wDir "Weekend" 0 "Alcatraz" "p2" 5 6).2.2 wUser
     ⟨"Weekend", [⟨"Pier 39", "p1", 3, 4⟩]⟩ (by decide) (by decide)⟩

/-- Claim C7: `deleteActivityGroup` fails with `NotFound(User)` when the
user is absent; when the user exists but the named group does not, it
silently succeeds and leaves the store — in particular every other group —
completely unchanged (user identifiers being unique, per the spec §3
invariant). -/
theorem deleteActivityGroup_spec (d : Directory) (uid : Nat) (gname : String) :
    (d.findUser uid = none → d.deleteActivityGroup uid gname = .error .userNotFound) ∧
    (∀ u, (d.users.map Prod.fst).Nodup → d.findUser uid = some u →
      u.findGroup gname = none → d.deleteActivityGroup uid gname = .ok d) := by
  constructor
  · intro h
    simp [Directory.deleteActivityGroup, h]
  · intro u hnd hu hg
    cases hfind : d.users.find? (fun p => p.1 == uid) with
    | none =>
      exfalso
      have : d.findUser uid = none := by
        unfold Directory.findUser
        rw [hfind]
        rfl
      rw [hu] at this
      exact Option.noConfusion this
    | some pr =>
      have hpr2 : pr.2 = u := by
        have h2 : some pr.2 = some u := by
          rw [← hu]
          unfold Directory.findUser
          rw [hfind]
          rfl
        exact Option.some.inj h2
      have hall := find?_key_unique uid pr d.users hnd hfind
      have hg' : u.activityGroups.find? (fun g => g.name == gname) = none := hg
      have hupd : d.updateUser uid (fun v =>
          { v with activityGroups :=
              v.activityGroups.filter (fun g => ¬ g.name == gname) }) = d := by
        apply updateUser_eq_self
        intro p hp hpid
        have hppr : p = pr := hall p hp hpid
        rw [hppr, hpr2]
        have hfilter : u.activityGroups.filter (fun g => ¬ g.name == gname) =
            u.activityGroups := by
          rw [List.filter_eq_self]
          intro g hgmem
          have hgn := List.find?_eq_none.mp hg' g hgmem
          simpa using hgn
        show ({ u with activityGroups :=
            u.activityGroups.filter (fun g => ¬ g.name == gname) } : User) = u
        rw [hfilter]
      simp only [Directory.deleteActivityGroup, hu, hupd]

/-- Witness for C7: deleting the absent group "Museums" for user 0 returns
success with the store unchanged, and deleting for the absent user 5 fails
with `NotFound(User)`. -/
theorem deleteActivityGroup_spec_witness :
    wDir.deleteActivityGroup 5 "Weekend" = .error .userNotFound ∧
    wDir.deleteActivityGroup 0 "Museums" = .ok wDir :=
  ⟨(deleteActivityGroup_spec wDir 5 "Weekend").1 (by decide),
   (deleteActivityGroup_spec wDir 0 "Museums").2 wUser (by decide) (by decide) (by decide)⟩

/-- Claim C3: the `GET /place` lookup over a user's flattened places is
case-insensitive — two queries equal up to ASCII case give the same
result, and a stored Place whose name matches the query up to case is
found. -/
theorem get_place_case_insensitive (d : Directory) (uid : Nat) (q1 q2 : String)
    (h : strLower q1 = strLower q2) :
    get_place d uid q1 = get_place d uid q2 ∧
    (∀ u, d.findUser uid = some u →
      (∃ p ∈ u.allPlaces, strLower p.name = strLower q1) →
      ∃ p, get_place d uid q1 = .ok p ∧ strLower p.name = strLower q1) := by
  constructor
  · unfold get_place
    rw [h]
  · intro u hu hex
    rcases hex with ⟨p0, hp0mem, hp0name⟩
    have hsome : (u.allPlaces.find? (fun p => strLower p.name == strLower q1)).isSome = true := by
      rw [List.find?_isSome]
      exact ⟨p0, hp0mem, by simp [hp0name]⟩
    rcases Option.isSome_iff_exists.mp hsome with ⟨p, hp⟩
    have hpmatch := List.find?_some hp
    refine ⟨p, ?_, by simpa using hpmatch⟩
    simp only [get_place, hu, hp]

/-- Witness for C3: the Place stored as "Pier 39" is found by the query
"PIER 39", and the queries "PIER 39" and "pier 39" are interchangeable. -/
theorem get_place_case_insensitive_witness :
    get_place wDir 0 "PIER 39" = get_place wDir 0 "pier 39" ∧
    ∃ p, get_place wDir 0 "PIER 39" = .ok p ∧
      strLower p.name = strLower "PIER 39" :=
  ⟨(get_place_case_insensitive wDir 0 "PIER 39" "pier 39" (by decide)).1,
   (get_place_case_insensitive wDir 0 "PIER 39" "pier 39" (by decide)).2 wUser
     (by decide) ⟨⟨"Pier 39", "p1", 3, 4⟩, by decide, by decide⟩⟩

/-- Claim C8: for an existing user and group, `deletePlace` succeeds and a
subsequent `getActivityGroup` returns the group with the first Place of
matching id removed; under the spec §3 invariant that a Place id occurs at
most once per group, no Place with that id remains; and when no Place in
the group has that id the operation is a successful no-op. -/
theorem deletePlace_spec (d : Directory) (uid : Nat) (gname pid : String)
    (u : User) (grp : ActivityGroup)
    (hu : d.findUser uid = some u) (hg : u.findGroup gname = some grp) :
    ∃ d', d.deletePlace uid gname pid = .ok d' ∧
      d'.getActivityGroup uid gname =
        .ok (grp.places.eraseP (fun p => p.ID == pid)) ∧
      (grp.places.countP (fun p => p.ID == pid) ≤ 1 →
        ∀ p ∈ grp.places.eraseP (fun p => p.ID == pid), p.ID ≠ pid) ∧
      ((∀ p ∈ grp.places, p.ID ≠ pid) →
        grp.places.eraseP (fun p => p.ID == pid) = grp.places) := by
  have hname : ∀ g : ActivityGroup,
      ((if g.name == gname then
          { g with places := g.places.eraseP (fun p => p.ID == pid) }
        else g) : ActivityGroup).name = g.name := by
    intro g
    by_cases hgg : g.name == gname <;> simp [hgg]
  have hmain := getActivityGroup_updateUser_map d uid gname u grp
    (fun g => if g.name == gname then
        { g with places := g.places.eraseP (fun p => p.ID == pid) }
      else g) hu hg hname
  have hg' : u.activityGroups.find? (fun g => g.name == gname) = some grp := hg
  have hgtrue : (grp.name == gname) = true := by
    have := List.find?_some hg'
    simpa using this
  simp only [hgtrue, if_true] at hmain
  refine ⟨_, ?_, hmain, ?_, ?_⟩
  · simp [Directory.deletePlace, hu, hg]
  · intro hc p hp
    have hfalse := eraseP_all_not_of_countP_le_one (fun p => p.ID == pid) grp.places hc p hp
    simpa using hfalse
  · intro hnone
    apply List.eraseP_of_forall_not
    intro p hp
    simpa using hnone p hp

/-- Witness for C8: deleting place `p1` from group "Weekend" of user 0
empties the group, and the no-op conjuncts hold at that instance. -/
theorem deletePlace_spec_witness :
    ∃ d', wDir.deletePlace 0 "Weekend" "p1" = .ok d' ∧
      d'.getActivityGroup 0 "Weekend" =
        .ok (([⟨"Pier 39", "p1", 3, 4⟩] : List Place).eraseP (fun p => p.ID == "p1")) ∧
      (([⟨"Pier 39", "p1", 3, 4⟩] : List Place).countP (fun p => p.ID == "p1") ≤ 1 →
        ∀ p ∈ ([⟨"Pier 39", "p1", 3, 4⟩] : List Place).eraseP (fun p => p.ID == "p1"),
          p.ID ≠ "p1") ∧
      ((∀ p ∈ ([⟨"Pier 39", "p1", 3, 4⟩] : List Place), p.ID ≠ "p1") →
        ([⟨"Pier 39", "p1", 3, 4⟩] : List Place).eraseP (fun p => p.ID == "p1") =
          [⟨"Pier 39", "p1", 3, 4⟩]) :=
  deletePlace_spec wDir 0 "Weekend" "p1" wUser ⟨"Weekend", [⟨"Pier 39", "p1", 3, 4⟩]⟩
    (by decide) (by decide)

theorem findPlan_map_fix (u : User) (planId : String)
    (hP : DailyPlan → DailyPlan) (hid : ∀ p, (hP p).id = p.id) :
    ({ u with dailyPlans := u.dailyPlans.map hP } : User).findPlan planId =
      (u.findPlan planId).map hP := by
  show (u.dailyPlans.map hP).find? (fun p => p.id == planId) = _
  exact find?_map_fix hP (fun p => p.id == planId)
    (fun p => by show ((hP p).id == planId) = (p.id == planId); rw [hid p])
    u.dailyPlans

/-- Claim C6: `addToDailyPlan` fails with `NotFound(User)` when the user is
absent; for an existing user it succeeds, creating the daily plan lazily
when absent and appending the place reference (duplicates allowed), so
the plan's reference sequence becomes the old one plus the new id at the
end, and a subsequent `getDailyPlan` returns those references resolved in
that insertion order. -/
theorem addToDailyPlan_spec (d : Directory) (uid : Nat) (planId pid : String) :
    (d.findUser uid = none → d.addToDailyPlan uid planId pid = .error .userNotFound) ∧
    (∀ u, d.findUser uid = some u →
      ∃ d' u', d.addToDailyPlan uid planId pid = .ok d' ∧
        d'.findUser uid = some u' ∧
        (∃ plan', u'.findPlan planId = some plan' ∧
          plan'.placeIds = u.planRefs planId ++ [pid]) ∧
        d'.getDailyPlan uid planId =
          .ok ((u.planRefs planId ++ [pid]).filterMap u.resolvePlace)) := by
  constructor
  · intro h
    simp [Directory.addToDailyPlan, h]
  · intro u hu
    cases hplan : u.findPlan planId with
    | some plan =>
      have hplantrue : (u.findPlan planId).isSome = true := by rw [hplan]; rfl
      have hfPu : (fun v : User =>
          if (v.findPlan planId).isSome then
            { v with dailyPlans := v.dailyPlans.map (fun p =>
                if p.id == planId then { p with placeIds := p.placeIds ++ [pid] } else p) }
          else
            { v with dailyPlans := v.dailyPlans ++ [⟨planId, [pid]⟩] } : User → User) u =
          { u with dailyPlans := u.dailyPlans.map (fun p =>
              if p.id == planId then { p with placeIds := p.placeIds ++ [pid] } else p) } := by
        simp [hplantrue]
      have hfind' : (d.updateUser uid (fun v : User =>
          if (v.findPlan planId).isSome then
            { v with dailyPlans := v.dailyPlans.map (fun p =>
                if p.id == planId then { p with placeIds := p.placeIds ++ [pid] } else p) }
          else
            { v with dailyPlans := v.dailyPlans ++ [⟨planId, [pid]⟩] })).findUser uid =
          some { u with dailyPlans := u.dailyPlans.map (fun p =>
              if p.id == planId then { p with placeIds := p.placeIds ++ [pid] } else p) } := by
        rw [findUser_updateUser, hu, Option.map_some']
        simp [hplantrue]
      have hid : ∀ p : DailyPlan,
          ((if p.id == planId then { p with placeIds := p.placeIds ++ [pid] }
            else p) : DailyPlan).id = p.id := by
        intro p
        by_cases hpp : p.id == planId <;> simp [hpp]
      have hplan0 : u.dailyPlans.find? (fun p => p.id == planId) = some plan := hplan
      have hptrue : (plan.id == planId) = true := by
        have := List.find?_some hplan0
        simpa using this
      have hfp' : ({ u with dailyPlans := u.dailyPlans.map (fun p =>
          if p.id == planId then { p with placeIds := p.placeIds ++ [pid] } else p) } :
            User).findPlan planId =
          some { plan with placeIds := plan.placeIds ++ [pid] } := by
        rw [findPlan_map_fix u planId _ hid, hplan, Option.map_some']
        simp [hptrue]
      have hrefs : u.planRefs planId = plan.placeIds := by
        simp [User.planRefs, hplan]
      have hgdp : (d.updateUser uid (fun v : User =>
          if (v.findPlan planId).isSome then
            { v with dailyPlans := v.dailyPlans.map (fun p =>
                if p.id == planId then { p with placeIds := p.placeIds ++ [pid] } else p) }
          else
            { v with dailyPlans := v.dailyPlans ++ [⟨planId, [pid]⟩] })).getDailyPlan
            uid planId =
          .ok ((plan.placeIds ++ [pid]).filterMap u.resolvePlace) := by
        simp only [Directory.getDailyPlan, hfind', hfp']
        rfl
      refine ⟨_, _, ?_, hfind', ⟨_, hfp', ?_⟩, ?_⟩
      · simp [Directory.addToDailyPlan, hu]
      · simp [hrefs]
      · rw [hrefs]
        exact hgdp
    | none =>
      have hplanfalse : (u.findPlan planId).isSome = false := by rw [hplan]; rfl
      have hfPu : (fun v : User =>
          if (v.findPlan planId).isSome then
            { v with dailyPlans := v.dailyPlans.map (fun p =>
                if p.id == planId then { p with placeIds := p.placeIds ++ [pid] } else p) }
          else
            { v with dailyPlans := v.dailyPlans ++ [⟨planId, [pid]⟩] } : User → User) u =
          { u with dailyPlans := u.dailyPlans ++ [⟨planId, [pid]⟩] } := by
        simp [hplanfalse]
      have hfind' : (d.updateUser uid (fun v : User =>
          if (v.findPlan planId).isSome then
            { v with dailyPlans := v.dailyPlans.map (fun p =>
                if p.id == planId then { p with placeIds := p.placeIds ++ [pid] } else p) }
          else
            { v with dailyPlans := v.dailyPlans ++ [⟨planId, [pid]⟩] })).findUser uid =
          some { u with dailyPlans := u.dailyPlans ++ [⟨planId, [pid]⟩] } := by
        rw [findUser_updateUser, hu, Option.map_some']
        simp [hplanfalse]
      have hplan0 : u.dailyPlans.find? (fun p => p.id == planId) = none := hplan
      have hfp' : ({ u with dailyPlans := u.dailyPlans ++ [⟨planId, [pid]⟩] } :
            User).findPlan planId = some ⟨planId, [pid]⟩ := by
        show (u.dailyPlans ++ [(⟨planId, [pid]⟩ : DailyPlan)]).find? (fun p => p.id == planId) = _
        rw [List.find?_append, hplan0]
        simp [List.find?_cons]
      have hrefs : u.planRefs planId = [] := by
        simp [User.planRefs, hplan]
      have hgdp : (d.updateUser uid (fun v : User =>
          if (v.findPlan planId).isSome then
            { v with dailyPlans := v.dailyPlans.map (fun p =>
                if p.id == planId then { p with placeIds := p.placeIds ++ [pid] } else p) }
          else
            { v with dailyPlans := v.dailyPlans ++ [⟨planId, [pid]⟩] })).getDailyPlan
            uid planId =
          .ok ([pid].filterMap u.resolvePlace) := by
        simp only [Directory.getDailyPlan, hfind', hfp']
        rfl
      refine ⟨_, _, ?_, hfind', ⟨_, hfp', ?_⟩, ?_⟩
      · simp [Directory.addToDailyPlan, hu]
      · simp [hrefs]
      · rw [hrefs]
        exact hgdp

/-- Witness for C6 at `wDir`: the plan "day1" already references `p1`, and
adding `p1` again appends a duplicate, so the plan resolves to the stored
place twice, in insertion order. -/
theorem addToDailyPlan_spec_witness :
    ∃ d' u', wDir.addToDailyPlan 0 "day1" "p1" = .ok d' ∧
      d'.findUser 0 = some u' ∧
      (∃ plan', u'.findPlan "day1" = some plan' ∧
        plan'.placeIds = wUser.planRefs "day1" ++ ["p1"]) ∧
      d'.getDailyPlan 0 "day1" =
        .ok ((wUser.planRefs "day1" ++ ["p1"]).filterMap wUser.resolvePlace) :=
  (addToDailyPlan_spec wDir 0 "day1" "p1").2 wUser (by decide)
